import Mathlib

/-!
Verification of the sales-bonus aggregator (src/main.js).

A shallow embedding of the single source file `src/main.js`.  JavaScript
numbers are modelled as rationals (ℚ); absent / non-array fields are
modelled with `Option`; a JavaScript object used as a dictionary is
modelled as an association list in insertion order, where assigning to an
existing key keeps its position and a new key is appended at the end (so
a later binding for the same key overwrites the earlier one, as in JS).
`Array.prototype.sort`, stable in modern engines, is modelled by the
stable `List.mergeSort`, with a three-way comparator `c` translated to
the boolean relation `fun a b => c a b ≤ 0`.  `localeCompare` on skus is
modelled as the code-point lexicographic order on `String`.
-/

namespace SalesBonus

/-- A product card: only `sku` and `purchase_price` are read by the code. -/
structure Product where
  sku : String
  purchase_price : ℚ
deriving DecidableEq, Repr

/-- A seller; `first_name`/`last_name` are `Option` because the code
coalesces falsy values with an empty string. -/
structure Seller where
  id : Nat
  first_name : Option String
  last_name : Option String
deriving DecidableEq, Repr

/-- One line item of a purchase record; `discount` is optional and
defaults to 0 in `calculateSimpleRevenue`. -/
structure LineItem where
  sku : String
  quantity : ℚ
  sale_price : ℚ
  discount : Option ℚ
deriving DecidableEq, Repr

/-- A purchase record; `items = none` models an absent or non-array
`items` field (the code guards it with `Array.isArray`). -/
structure PurchaseRecord where
  seller_id : Nat
  total_amount : ℚ
  items : Option (List LineItem)
deriving DecidableEq, Repr

/-- The mutable per-seller accumulator built by `analyzeSalesData`.
`products_sold` is the sku → cumulative quantity dictionary. -/
structure SellerStat where
  id : Nat
  name : String
  revenue : ℚ
  profit : ℚ
  sales_count : Nat
  products_sold : List (String × ℚ)
deriving DecidableEq, Repr

/-- An entry of `top_products` in the final report. -/
structure TopProduct where
  sku : String
  quantity : ℚ
deriving DecidableEq, Repr

/-- One row of the final report returned by `analyzeSalesData`. -/
structure SellerReport where
  seller_id : Nat
  name : String
  revenue : ℚ
  profit : ℚ
  sales_count : Nat
  top_products : List TopProduct
  bonus : ℚ
deriving DecidableEq, Repr

/-- The type of a revenue strategy: `calculateRevenue(item, product)`,
where the product argument is `undefined` (here `none`) for unknown skus. -/
abbrev RevenueFn := LineItem → Option Product → ℚ

/-- The type of a bonus strategy: `calculateBonus(index, total, seller)`. -/
abbrev BonusFn := Nat → Nat → SellerStat → ℚ

/-- `calculateSimpleRevenue` from src/main.js:
`sale_price * quantity * (1 - discount / 100)` with `discount` defaulting
to 0 when absent. -/
def calculateSimpleRevenue (purchase : LineItem) (_product : Option Product) : ℚ :=
  purchase.sale_price * purchase.quantity * (1 - purchase.discount.getD 0 / 100)

/-- `calculateBonusByProfit` from src/main.js: 15% for first place, 10%
for second and third, 0 for last place, 5% otherwise, with the branches
tested in this order. -/
def calculateBonusByProfit (index : Nat) (total : Nat) (seller : SellerStat) : ℚ :=
  let profit := seller.profit
  if index = 0 then profit * 0.15
  else if index = 1 ∨ index = 2 then profit * 0.10
  else if index = total - 1 then 0
  else profit * 0.05

/-- The initial SellerStat built from a seller (the `sellerStats` map in
src/main.js): zero accumulators and the formatted name, falling back to
"Unknown" when the trimmed name is empty. -/
def initStat (seller : Seller) : SellerStat :=
  { id := seller.id
    name :=
      let n := (seller.first_name.getD "" ++ " " ++ seller.last_name.getD "").trim
      if n = "" then "Unknown" else n
    revenue := 0
    profit := 0
    sales_count := 0
    products_sold := [] }

/-- The `productIndex` dictionary of src/main.js: for a duplicate sku the
later product overwrites the earlier one, so lookup returns the last
product with the given sku. -/
def productIndex (products : List Product) (sku : String) : Option Product :=
  (products.filter (fun p => p.sku = sku)).getLast?

/-- `seller.products_sold[sku] += item.quantity`, creating the entry at 0
if new: an existing key keeps its position, a new key is appended. -/
def addSold (ps : List (String × ℚ)) (sku : String) (q : ℚ) : List (String × ℚ) :=
  if ps.any (fun e => e.1 = sku) then
    ps.map (fun e => if e.1 = sku then (e.1, e.2 + q) else e)
  else ps ++ [(sku, q)]

/-- Processing of one line item (the inner `record.items.forEach` body in
src/main.js): add `revenueItem - cost` to profit, with cost 0 for an
unknown sku, and account the quantity in `products_sold`. -/
def processItem (calculateRevenue : RevenueFn) (pidx : String → Option Product)
    (stat : SellerStat) (item : LineItem) : SellerStat :=
  let revenueItem := calculateRevenue item (pidx item.sku)
  let cost :=
    match pidx item.sku with
    | some product => product.purchase_price * item.quantity
    | none => 0
  { stat with
    profit := stat.profit + (revenueItem - cost)
    products_sold := addSold stat.products_sold item.sku item.quantity }

/-- The update applied to the matched seller's stat by one purchase
record: increment `sales_count`, add `total_amount` to revenue, then fold
the line items when `items` is an array. -/
def recordUpdate (calculateRevenue : RevenueFn) (pidx : String → Option Product)
    (record : PurchaseRecord) (stat : SellerStat) : SellerStat :=
  let stat :=
    { stat with
      sales_count := stat.sales_count + 1
      revenue := stat.revenue + record.total_amount }
  match record.items with
  | some items => items.foldl (processItem calculateRevenue pidx) stat
  | none => stat

/-- Mutation through `sellerIndex[record.seller_id]`: the index maps each
id to the LAST stat with that id (later assignments overwrite earlier
ones), so the update lands on the last element of the list carrying the
id, everything else unchanged. -/
def updateLast (sid : Nat) (f : SellerStat → SellerStat) :
    List SellerStat → List SellerStat
  | [] => []
  | s :: rest =>
    if rest.any (fun t => t.id = sid) then s :: updateLast sid f rest
    else if s.id = sid then f s :: rest
    else s :: rest

/-- Processing of one purchase record (the `data.purchase_records.forEach`
body): look the seller up in the index; if absent, skip the record. -/
def processRecord (calculateRevenue : RevenueFn) (pidx : String → Option Product)
    (stats : List SellerStat) (record : PurchaseRecord) : List SellerStat :=
  if stats.any (fun s => s.id = record.seller_id) then
    updateLast record.seller_id (recordUpdate calculateRevenue pidx record) stats
  else stats

/-- The comparator of the `productList.sort` in src/main.js, as the
boolean "may come before" relation of a stable sort: descending quantity,
ties by ascending sku. -/
def topLe (a b : TopProduct) : Bool :=
  if a.quantity = b.quantity then decide (a.sku ≤ b.sku)
  else decide (b.quantity ≤ a.quantity)

/-- `top_products` of one seller: turn `products_sold` into
`{sku, quantity}` pairs, sort by descending quantity with ties by
ascending sku, take the first 10. -/
def topProducts (products_sold : List (String × ℚ)) : List TopProduct :=
  ((products_sold.map (fun e => TopProduct.mk e.1 e.2)).mergeSort topLe).take 10

/-- The `sellerStats.sort((a, b) => b.profit - a.profit)` call: a stable
sort by descending profit. -/
def sortStats (stats : List SellerStat) : List SellerStat :=
  stats.mergeSort (fun a b => decide (b.profit ≤ a.profit))

/-- `+x.toFixed(2)`: rounding to two decimal places (nearest, ties up). -/
def round2 (q : ℚ) : ℚ := (round (q * 100) : ℤ) / 100

/-- The projection of one finalized stat into a report row, at 0-based
rank `index` among `total` sellers. -/
def toReport (calculateBonus : BonusFn) (total : Nat) (index : Nat)
    (s : SellerStat) : SellerReport :=
  { seller_id := s.id
    name := s.name
    revenue := round2 s.revenue
    profit := round2 s.profit
    sales_count := s.sales_count
    top_products := topProducts s.products_sold
    bonus := round2 (calculateBonus index total s) }

/-- `forEach` with an index, starting at `i`. -/
def mapIdxFrom {α β : Type} (f : Nat → α → β) (i : Nat) : List α → List β
  | [] => []
  | a :: l => f i a :: mapIdxFrom f (i + 1) l

/-- The validated input collections of `analyzeSalesData`. -/
structure SalesData where
  products : List Product
  sellers : List Seller
  purchase_records : List PurchaseRecord

/-- The stats after the purchase-record scan: one initial stat per seller
in order, then a left fold over the purchase records. -/
def processedStats (calculateRevenue : RevenueFn) (d : SalesData) : List SellerStat :=
  d.purchase_records.foldl
    (processRecord calculateRevenue (productIndex d.products))
    (d.sellers.map initStat)

/-- The stats sorted by descending profit. -/
def sortedStats (calculateRevenue : RevenueFn) (d : SalesData) : List SellerStat :=
  sortStats (processedStats calculateRevenue d)

/-- The whole aggregation on validated input: scan, sort, then build one
report row per stat at its rank. -/
def aggregate (calculateRevenue : RevenueFn) (calculateBonus : BonusFn)
    (d : SalesData) : List SellerReport :=
  mapIdxFrom
    (toReport calculateBonus (sortedStats calculateRevenue d).length) 0
    (sortedStats calculateRevenue d)

/-- Raw `data` argument before validation: each collection is `none` when
the field is absent or not an array. -/
structure RawData where
  products : Option (List Product)
  sellers : Option (List Seller)
  purchase_records : Option (List PurchaseRecord)

/-- Raw `options` argument before validation: either not an object at
all, or an object whose two strategy fields may be missing or not
callable (`none`). -/
inductive RawOptions where
  | notObject
  | obj (calculateRevenue : Option RevenueFn) (calculateBonus : Option BonusFn)

/-- The two error kinds of §7 of the spec: `InvalidInputError` for the
malformed `data` argument and `InvalidOptionsError` for the malformed
`options` argument. -/
inductive AggError where
  | invalidInput
  | invalidOptions
deriving DecidableEq, Repr

/-- `analyzeSalesData` from src/main.js: validate `data`, then `options`,
then aggregate.  The checks happen in source order: all `data` checks
first, then the object check, then the two callables. -/
def analyzeSalesData (data : Option RawData) (options : RawOptions) :
    Except AggError (List SellerReport) :=
  match data with
  | none => .error .invalidInput
  | some d =>
    match d.products, d.sellers, d.purchase_records with
    | some ps, some ss, some prs =>
      if ps.isEmpty || ss.isEmpty || prs.isEmpty then .error .invalidInput
      else
        match options with
        | .notObject => .error .invalidOptions
        | .obj cr cb =>
          match cr, cb with
          | some calculateRevenue, some calculateBonus =>
            .ok (aggregate calculateRevenue calculateBonus ⟨ps, ss, prs⟩)
          | _, _ => .error .invalidOptions
    | _, _, _ => .error .invalidInput

/-- The spec's `InvalidInputError` condition, stated from its words:
`data` is absent, or any of the three collections is not a sequence or is
an empty sequence. -/
def DataInvalid (data : Option RawData) : Prop :=
  data = none ∨ ∃ d, data = some d ∧
    (d.products = none ∨ d.sellers = none ∨ d.purchase_records = none ∨
     d.products = some [] ∨ d.sellers = some [] ∨ d.purchase_records = some [])

/-- The spec's `InvalidOptionsError` condition, stated from its words:
`options` is not an object, or either strategy function is missing or not
callable. -/
def OptionsInvalid (options : RawOptions) : Prop :=
  options = .notObject ∨
    ∃ cr cb, options = .obj cr cb ∧ (cr = none ∨ cb = none)

/-- The ordering the spec requires of `top_products`: descending
quantity, ties ordered by ascending lexicographic sku. -/
def TopOrder (a b : TopProduct) : Prop :=
  b.quantity < a.quantity ∨ (a.quantity = b.quantity ∧ a.sku ≤ b.sku)

/-! ## Basic preservation lemmas -/

theorem id_processItem (cr : RevenueFn) (pidx : String → Option Product)
    (s : SellerStat) (it : LineItem) : (processItem cr pidx s it).id = s.id := rfl

theorem sales_count_processItem (cr : RevenueFn) (pidx : String → Option Product)
    (s : SellerStat) (it : LineItem) :
    (processItem cr pidx s it).sales_count = s.sales_count := rfl

theorem revenue_processItem (cr : RevenueFn) (pidx : String → Option Product)
    (s : SellerStat) (it : LineItem) :
    (processItem cr pidx s it).revenue = s.revenue := rfl

theorem id_foldl_processItem (cr : RevenueFn) (pidx : String → Option Product)
    (items : List LineItem) : ∀ s : SellerStat,
    (items.foldl (processItem cr pidx) s).id = s.id := by
  induction items with
  | nil => intro s; rfl
  | cons it items ih =>
    intro s
    rw [List.foldl_cons, ih, id_processItem]

theorem sales_count_foldl_processItem (cr : RevenueFn) (pidx : String → Option Product)
    (items : List LineItem) : ∀ s : SellerStat,
    (items.foldl (processItem cr pidx) s).sales_count = s.sales_count := by
  induction items with
  | nil => intro s; rfl
  | cons it items ih =>
    intro s
    rw [List.foldl_cons, ih, sales_count_processItem]

theorem revenue_foldl_processItem (cr : RevenueFn) (pidx : String → Option Product)
    (items : List LineItem) : ∀ s : SellerStat,
    (items.foldl (processItem cr pidx) s).revenue = s.revenue := by
  induction items with
  | nil => intro s; rfl
  | cons it items ih =>
    intro s
    rw [List.foldl_cons, ih, revenue_processItem]

theorem id_recordUpdate (cr : RevenueFn) (pidx : String → Option Product)
    (r : PurchaseRecord) (s : SellerStat) :
    (recordUpdate cr pidx r s).id = s.id := by
  unfold recordUpdate
  cases r.items with
  | none => rfl
  | some items => exact id_foldl_processItem cr pidx items _

theorem sales_count_recordUpdate (cr : RevenueFn) (pidx : String → Option Product)
    (r : PurchaseRecord) (s : SellerStat) :
    (recordUpdate cr pidx r s).sales_count = s.sales_count + 1 := by
  unfold recordUpdate
  cases r.items with
  | none => rfl
  | some items => exact sales_count_foldl_processItem cr pidx items _

theorem revenue_recordUpdate (cr : RevenueFn) (pidx : String → Option Product)
    (r : PurchaseRecord) (s : SellerStat) :
    (recordUpdate cr pidx r s).revenue = s.revenue + r.total_amount := by
  unfold recordUpdate
  cases r.items with
  | none => rfl
  | some items => exact revenue_foldl_processItem cr pidx items _

/-! ## `updateLast` lemmas -/

theorem updateLast_map_of_fix {β : Type} (g : SellerStat → β) (sid : Nat)
    (f : SellerStat → SellerStat) (hf : ∀ s, g (f s) = g s) :
    ∀ l : List SellerStat, (updateLast sid f l).map g = l.map g := by
  intro l
  induction l with
  | nil => rfl
  | cons s rest ih =>
    by_cases h : rest.any (fun t => t.id = sid)
    · simp [updateLast, h, ih]
    · by_cases h2 : s.id = sid <;> simp [updateLast, h, h2, hf]

theorem updateLast_map_sum {M : Type} [AddCommMonoid M] (g : SellerStat → M) (c : M)
    (sid : Nat) (f : SellerStat → SellerStat) (hf : ∀ s, g (f s) = g s + c) :
    ∀ l : List SellerStat, l.any (fun t => t.id = sid) = true →
      ((updateLast sid f l).map g).sum = (l.map g).sum + c := by
  intro l
  induction l with
  | nil => intro h; simp at h
  | cons s rest ih =>
    intro hany
    by_cases h : rest.any (fun t => t.id = sid)
    · simp only [updateLast, h, if_true, List.map_cons, List.sum_cons]
      rw [ih h, add_assoc]
    · have hs : s.id = sid := by simpa [h] using hany
      simp only [updateLast, h, hs, if_true, Bool.false_eq_true, if_false, List.map_cons,
        List.sum_cons, hf]
      rw [add_right_comm]

theorem updateLast_append_last (sid : Nat) (f : SellerStat → SellerStat)
    (l₁ : List SellerStat) (s : SellerStat) (l₂ : List SellerStat)
    (hs : s.id = sid) (h2 : ∀ t ∈ l₂, t.id ≠ sid) :
    updateLast sid f (l₁ ++ s :: l₂) = l₁ ++ f s :: l₂ := by
  induction l₁ with
  | nil =>
    have hfalse : l₂.any (fun t => t.id = sid) = false := by
      simp only [List.any_eq_false, decide_eq_true_eq]
      exact h2
    simp [updateLast, hfalse, hs]
  | cons a l₁ ih =>
    have htrue : (l₁ ++ s :: l₂).any (fun t => t.id = sid) = true := by
      simp only [List.any_eq_true, decide_eq_true_eq]
      exact ⟨s, by simp, hs⟩
    simp [updateLast, htrue, ih]

/-! ## Validation characterization -/

theorem dataInvalid_some_iff (ps : List Product) (ss : List Seller)
    (prs : List PurchaseRecord) :
    DataInvalid (some ⟨some ps, some ss, some prs⟩) ↔ (ps = [] ∨ ss = [] ∨ prs = []) := by
  simp [DataInvalid]

theorem analyze_invalidInput_iff (data : Option RawData) (options : RawOptions) :
    analyzeSalesData data options = .error AggError.invalidInput ↔ DataInvalid data := by
  cases data with
  | none => simp [analyzeSalesData, DataInvalid]
  | some d =>
    obtain ⟨ps?, ss?, prs?⟩ := d
    cases ps? with
    | none => simp [analyzeSalesData, DataInvalid]
    | some ps =>
      cases ss? with
      | none => simp [analyzeSalesData, DataInvalid]
      | some ss =>
        cases prs? with
        | none => simp [analyzeSalesData, DataInvalid]
        | some prs =>
          rw [dataInvalid_some_iff]
          by_cases he : ps.isEmpty || ss.isEmpty || prs.isEmpty
          · have hd : ps = [] ∨ ss = [] ∨ prs = [] := by
              simpa [List.isEmpty_iff, or_assoc] using he
            simp [analyzeSalesData, he, hd]
          · have hd : ¬ (ps = [] ∨ ss = [] ∨ prs = []) := by
              simpa [List.isEmpty_iff, not_or, and_assoc] using he
            cases options with
            | notObject => simp [analyzeSalesData, he, hd]
            | obj cr cb =>
              cases cr with
              | none => simp [analyzeSalesData, he, hd]
              | some cr =>
                cases cb with
                | none => simp [analyzeSalesData, he, hd]
                | some cb => simp [analyzeSalesData, he, hd]

theorem analyze_invalidOptions_iff (data : Option RawData) (options : RawOptions) :
    analyzeSalesData data options = .error AggError.invalidOptions ↔
      ¬ DataInvalid data ∧ OptionsInvalid options := by
  cases data with
  | none => simp [analyzeSalesData, DataInvalid]
  | some d =>
    obtain ⟨ps?, ss?, prs?⟩ := d
    cases ps? with
    | none => simp [analyzeSalesData, DataInvalid]
    | some ps =>
      cases ss? with
      | none => simp [analyzeSalesData, DataInvalid]
      | some ss =>
        cases prs? with
        | none => simp [analyzeSalesData, DataInvalid]
        | some prs =>
          rw [dataInvalid_some_iff]
          by_cases he : ps.isEmpty || ss.isEmpty || prs.isEmpty
          · have hd : ps = [] ∨ ss = [] ∨ prs = [] := by
              simpa [List.isEmpty_iff, or_assoc] using he
            simp [analyzeSalesData, he, hd]
          · have hd : ¬ (ps = [] ∨ ss = [] ∨ prs = []) := by
              simpa [List.isEmpty_iff, not_or, and_assoc] using he
            cases options with
            | notObject => simp [analyzeSalesData, he, hd, OptionsInvalid]
            | obj cr cb =>
              cases cr with
              | none =>
                simp [analyzeSalesData, he, hd, OptionsInvalid]
                exact ⟨none, cb, ⟨rfl, rfl⟩, Or.inl rfl⟩
              | some cr =>
                cases cb with
                | none =>
                  simp [analyzeSalesData, he, hd, OptionsInvalid]
                  exact ⟨some cr, none, ⟨rfl, rfl⟩, Or.inr rfl⟩
                | some cb => simp [analyzeSalesData, he, hd, OptionsInvalid]

theorem analyze_ok_iff (data : Option RawData) (options : RawOptions) :
    (∃ rows, analyzeSalesData data options = .ok rows) ↔
      ¬ DataInvalid data ∧ ¬ OptionsInvalid options := by
  cases data with
  | none => simp [analyzeSalesData, DataInvalid]
  | some d =>
    obtain ⟨ps?, ss?, prs?⟩ := d
    cases ps? with
    | none => simp [analyzeSalesData, DataInvalid]
    | some ps =>
      cases ss? with
      | none => simp [analyzeSalesData, DataInvalid]
      | some ss =>
        cases prs? with
        | none => simp [analyzeSalesData, DataInvalid]
        | some prs =>
          rw [dataInvalid_some_iff]
          by_cases he : ps.isEmpty || ss.isEmpty || prs.isEmpty
          · have hd : ps = [] ∨ ss = [] ∨ prs = [] := by
              simpa [List.isEmpty_iff, or_assoc] using he
            simp [analyzeSalesData, he, hd]
          · have hd : ¬ (ps = [] ∨ ss = [] ∨ prs = []) := by
              simpa [List.isEmpty_iff, not_or, and_assoc] using he
            cases options with
            | notObject => simp [analyzeSalesData, he, hd, OptionsInvalid]
            | obj cr cb =>
              cases cr with
              | none => simp [analyzeSalesData, he, hd, OptionsInvalid]
              | some cr =>
                cases cb with
                | none => simp [analyzeSalesData, he, hd, OptionsInvalid]
                | some cb => simp [analyzeSalesData, he, hd, OptionsInvalid]


/-! ## Claims C2, C9, C3 -/

/-- C2: `analyzeSalesData` fails with `InvalidInputError` exactly when
`data` is absent or a collection is not a sequence or empty; it fails
with `InvalidOptionsError` exactly when the data is valid but `options`
is not an object or a strategy function is missing; otherwise it returns
a result, so no other error kind is raised and no partial result is
returned on the error paths. -/
theorem c2_validation_iff (data : Option RawData) (options : RawOptions) :
    (analyzeSalesData data options = .error AggError.invalidInput ↔ DataInvalid data) ∧
    (analyzeSalesData data options = .error AggError.invalidOptions ↔
      ¬ DataInvalid data ∧ OptionsInvalid options) ∧
    ((∃ rows, analyzeSalesData data options = .ok rows) ↔
      ¬ DataInvalid data ∧ ¬ OptionsInvalid options) :=
  ⟨analyze_invalidInput_iff data options, analyze_invalidOptions_iff data options,
    analyze_ok_iff data options⟩

/-- C9: when `data` is invalid, `analyzeSalesData` reports
`InvalidInputError` whatever `options` is — the data checks run first and
the options are never inspected on that path. -/
theorem c9_data_checked_first (data : Option RawData) (options : RawOptions)
    (h : DataInvalid data) :
    analyzeSalesData data options = .error AggError.invalidInput :=
  (analyze_invalidInput_iff data options).mpr h

/-- C9 witness: empty collections together with non-object options yield
`InvalidInputError`, not `InvalidOptionsError`. -/
theorem c9_data_checked_first_witness :
    analyzeSalesData (some ⟨some [], some [], some []⟩) RawOptions.notObject
      = .error AggError.invalidInput :=
  c9_data_checked_first _ _
    (Or.inr ⟨⟨some [], some [], some []⟩, rfl, Or.inr (Or.inr (Or.inr (Or.inl rfl)))⟩)

/-- C3: `calculateBonusByProfit` pays 15% of profit at rank 0, 10% at
ranks 1 and 2, 0 at the last rank when it is none of the first three, and
5% otherwise; with a single seller rank 0 wins over the last-place rule. -/
theorem c3_bonus_by_profit (p : ℚ) (n : Nat) (s : SellerStat)
    (hp : s.profit = p) (hn : 1 ≤ n) :
    calculateBonusByProfit 0 n s = p * 0.15 ∧
    (∀ i : Nat, i = 1 ∨ i = 2 → calculateBonusByProfit i n s = p * 0.10) ∧
    (∀ i : Nat, i = n - 1 → i ≠ 0 → i ≠ 1 → i ≠ 2 →
      calculateBonusByProfit i n s = 0) ∧
    (∀ i : Nat, i ≠ 0 → i ≠ 1 → i ≠ 2 → i ≠ n - 1 →
      calculateBonusByProfit i n s = p * 0.05) := by
  subst hp
  refine ⟨by simp [calculateBonusByProfit], ?_, ?_, ?_⟩
  · rintro i (rfl | rfl) <;> simp [calculateBonusByProfit]
  · intro i hlast h0 h1 h2
    simp only [calculateBonusByProfit]
    rw [if_neg h0, if_neg (by tauto), if_pos hlast]
  · intro i h0 h1 h2 hlast
    simp only [calculateBonusByProfit]
    rw [if_neg h0, if_neg (by tauto), if_neg hlast]

/-- C3 witness: a single seller with profit 200 gets the first-place
bonus 30 even though rank 0 is also the last rank. -/
theorem c3_bonus_by_profit_witness :
    calculateBonusByProfit 0 1 ⟨1, "", 0, 200, 0, []⟩ = 30 := by
  rw [(c3_bonus_by_profit 200 1 ⟨1, "", 0, 200, 0, []⟩ rfl (by decide)).1]
  norm_num

/-! ## Identity of the rows: permutation of the seller ids -/

theorem mapIdxFrom_length {α β : Type} (f : Nat → α → β) :
    ∀ (i : Nat) (l : List α), (mapIdxFrom f i l).length = l.length := by
  intro i l
  induction l generalizing i with
  | nil => rfl
  | cons a l ih => simp [mapIdxFrom, ih]

theorem mapIdxFrom_map {α β γ : Type} (f : Nat → α → β) (g1 : β → γ) (g2 : α → γ)
    (hf : ∀ i a, g1 (f i a) = g2 a) :
    ∀ (i : Nat) (l : List α), (mapIdxFrom f i l).map g1 = l.map g2 := by
  intro i l
  induction l generalizing i with
  | nil => rfl
  | cons a l ih => simp [mapIdxFrom, hf, ih]

theorem processRecord_map_of_fix {β : Type} (g : SellerStat → β) (cr : RevenueFn)
    (pidx : String → Option Product) (r : PurchaseRecord)
    (hf : ∀ s, g (recordUpdate cr pidx r s) = g s) (l : List SellerStat) :
    (processRecord cr pidx l r).map g = l.map g := by
  unfold processRecord
  by_cases h : l.any (fun s => s.id = r.seller_id) <;>
    simp [h, updateLast_map_of_fix g _ _ hf]

theorem processRecord_map_id (cr : RevenueFn) (pidx : String → Option Product)
    (r : PurchaseRecord) (l : List SellerStat) :
    (processRecord cr pidx l r).map (fun s => s.id) = l.map (fun s => s.id) :=
  processRecord_map_of_fix _ cr pidx r (fun s => id_recordUpdate cr pidx r s) l

theorem foldl_processRecord_map_id (cr : RevenueFn) (pidx : String → Option Product)
    (records : List PurchaseRecord) :
    ∀ stats : List SellerStat,
      ((records.foldl (processRecord cr pidx) stats).map (fun s => s.id))
        = stats.map (fun s => s.id) := by
  induction records with
  | nil => intro stats; rfl
  | cons r records ih =>
    intro stats
    rw [List.foldl_cons, ih, processRecord_map_id]

theorem processedStats_map_id (cr : RevenueFn) (d : SalesData) :
    (processedStats cr d).map (fun s => s.id) = d.sellers.map (fun s => s.id) := by
  unfold processedStats
  rw [foldl_processRecord_map_id, List.map_map]
  rfl

theorem sortStats_perm (l : List SellerStat) : (sortStats l).Perm l :=
  List.mergeSort_perm l _

theorem aggregate_seller_ids (cr : RevenueFn) (cb : BonusFn) (d : SalesData) :
    ((aggregate cr cb d).map (fun r => r.seller_id)).Perm
      (d.sellers.map (fun s => s.id)) := by
  unfold aggregate
  rw [mapIdxFrom_map (toReport cb (sortedStats cr d).length) (fun r => r.seller_id)
    (fun s => s.id) (fun i s => rfl) 0 (sortedStats cr d)]
  have h := (sortStats_perm (processedStats cr d)).map (fun s => s.id)
  rw [processedStats_map_id] at h
  exact h

theorem aggregate_length (cr : RevenueFn) (cb : BonusFn) (d : SalesData) :
    (aggregate cr cb d).length = d.sellers.length := by
  have h := (aggregate_seller_ids cr cb d).length_eq
  simpa using h

/-! ## Claims C1, C5 -/

/-- C1 (amended): for every valid input, the output of `analyzeSalesData`
has one row per entry of `data.sellers`, and each id occurs as
`seller_id` in exactly as many rows as there are seller entries with that
id; in particular, when the seller ids are pairwise distinct, every
seller's id appears in exactly one report row. -/
theorem c1_rows_per_seller (cr : RevenueFn) (cb : BonusFn) (d : SalesData) :
    (aggregate cr cb d).length = d.sellers.length ∧
    (∀ i : Nat, ((aggregate cr cb d).map (fun r => r.seller_id)).count i
      = (d.sellers.map (fun s => s.id)).count i) ∧
    ((d.sellers.map (fun s => s.id)).Nodup →
      ∀ s ∈ d.sellers,
        ((aggregate cr cb d).map (fun r => r.seller_id)).count s.id = 1) := by
  refine ⟨aggregate_length cr cb d,
    fun i => (aggregate_seller_ids cr cb d).count_eq i, ?_⟩
  intro hnd s hs
  rw [(aggregate_seller_ids cr cb d).count_eq]
  exact List.count_eq_one_of_mem hnd (List.mem_map_of_mem _ hs)

/-- C1 witness: a single seller with id 7 yields exactly one row carrying
seller_id 7. -/
theorem c1_rows_per_seller_witness :
    ((aggregate (fun _ _ => 0) (fun _ _ _ => 0)
        ⟨[⟨"A", 5⟩], [⟨7, none, none⟩], [⟨7, 0, none⟩]⟩).map
      (fun r => r.seller_id)).count 7 = 1 :=
  (c1_rows_per_seller (fun _ _ => 0) (fun _ _ _ => 0)
      ⟨[⟨"A", 5⟩], [⟨7, none, none⟩], [⟨7, 0, none⟩]⟩).2.2
    (by decide) ⟨7, none, none⟩ (by decide)

/-- C1 counterexample: a valid input (it passes validation, as the `.ok`
conjunct shows) whose two seller entries share id 1 produces two report
rows with seller_id 1, so the id of a seller does not appear in exactly
one row. -/
theorem c1_rows_per_seller_cex :
    (analyzeSalesData
        (some ⟨some [⟨"A", 5⟩], some [⟨1, none, none⟩, ⟨1, none, none⟩],
          some [⟨1, 0, none⟩]⟩)
        (RawOptions.obj (some fun _ _ => 0) (some fun _ _ _ => 0))
      = .ok (aggregate (fun _ _ => 0) (fun _ _ _ => 0)
          ⟨[⟨"A", 5⟩], [⟨1, none, none⟩, ⟨1, none, none⟩], [⟨1, 0, none⟩]⟩)) ∧
    ¬ ((aggregate (fun _ _ => 0) (fun _ _ _ => 0)
          ⟨[⟨"A", 5⟩], [⟨1, none, none⟩, ⟨1, none, none⟩], [⟨1, 0, none⟩]⟩).map
        (fun r => r.seller_id)).count 1 = 1 := by
  constructor
  · rfl
  · rw [(aggregate_seller_ids _ _ _).count_eq]
    decide

/-! ## Sum of the sales counts -/

theorem any_id_eq_of_map_id_eq {l₁ l₂ : List SellerStat}
    (h : l₁.map (fun s => s.id) = l₂.map (fun s => s.id)) (x : Nat) :
    l₁.any (fun s => s.id = x) = l₂.any (fun s => s.id = x) := by
  have h1 : ∀ l : List SellerStat,
      (l.any (fun s => s.id = x)) = ((l.map (fun s => s.id)).any (fun i => i = x)) := by
    intro l
    induction l with
    | nil => rfl
    | cons a l ih => simp [ih]
  rw [h1, h1, h]

theorem countP_congr_records (records : List PurchaseRecord)
    {p q : PurchaseRecord → Bool} (h : ∀ r, p r = q r) :
    records.countP p = records.countP q := by
  induction records with
  | nil => rfl
  | cons r records ih => simp [List.countP_cons, h, ih]

theorem sales_count_sum_processRecord (cr : RevenueFn) (pidx : String → Option Product)
    (l : List SellerStat) (r : PurchaseRecord) :
    ((processRecord cr pidx l r).map (fun s => s.sales_count)).sum
      = (l.map (fun s => s.sales_count)).sum
        + (if l.any (fun s => s.id = r.seller_id) then 1 else 0) := by
  unfold processRecord
  by_cases h : l.any (fun s => s.id = r.seller_id)
  · simp only [h, if_true]
    exact updateLast_map_sum _ 1 _ _ (fun s => sales_count_recordUpdate cr pidx r s) l h
  · simp [h]

theorem sales_count_sum_foldl (cr : RevenueFn) (pidx : String → Option Product)
    (records : List PurchaseRecord) :
    ∀ stats : List SellerStat,
      ((records.foldl (processRecord cr pidx) stats).map (fun s => s.sales_count)).sum
        = (stats.map (fun s => s.sales_count)).sum
          + records.countP (fun r => stats.any (fun s => s.id = r.seller_id)) := by
  induction records with
  | nil => intro stats; simp
  | cons r records ih =>
    intro stats
    rw [List.foldl_cons, ih, sales_count_sum_processRecord,
      countP_congr_records records
        (fun r' => any_id_eq_of_map_id_eq (processRecord_map_id cr pidx r stats) r'.seller_id),
      List.countP_cons]
    ring

/-- C5: the sum of `sales_count` over all report rows equals the number
of purchase records whose `seller_id` matches the id of some seller of
the input. -/
theorem c5_sales_count_sum (cr : RevenueFn) (cb : BonusFn) (d : SalesData) :
    ((aggregate cr cb d).map (fun r => r.sales_count)).sum
      = d.purchase_records.countP
          (fun r => d.sellers.any (fun s => s.id = r.seller_id)) := by
  unfold aggregate
  rw [mapIdxFrom_map (toReport cb (sortedStats cr d).length) (fun r => r.sales_count)
    (fun s => s.sales_count) (fun i s => rfl) 0 (sortedStats cr d)]
  have hperm := ((sortStats_perm (processedStats cr d)).map
    (fun s => s.sales_count)).sum_eq
  unfold sortedStats
  rw [hperm]
  unfold processedStats
  rw [sales_count_sum_foldl]
  have h0 : ((d.sellers.map initStat).map (fun s => s.sales_count)).sum = 0 := by
    apply List.sum_eq_zero
    intro x hx
    rw [List.map_map, List.mem_map] at hx
    obtain ⟨s, -, h⟩ := hx
    rw [← h]
    rfl
  have hany : ∀ x : Nat, (d.sellers.map initStat).any (fun s => s.id = x)
      = d.sellers.any (fun s => s.id = x) := by
    intro x
    induction d.sellers with
    | nil => rfl
    | cons a l ih => simp [initStat, ih]
  rw [h0, countP_congr_records _ (fun r => hany r.seller_id)]
  simp

/-! ## Claims C6, C7, C8 -/

theorem any_id_stats (l : List SellerStat) (x : Nat) :
    l.any (fun s => s.id = x) = (l.map (fun s => s.id)).any (fun i => i = x) := by
  induction l with
  | nil => rfl
  | cons a l ih => simp [ih]

theorem any_id_sellers (l : List Seller) (x : Nat) :
    l.any (fun s => s.id = x) = (l.map (fun s => s.id)).any (fun i => i = x) := by
  induction l with
  | nil => rfl
  | cons a l ih => simp [ih]

theorem processRecord_skip (cr : RevenueFn) (pidx : String → Option Product)
    (stats : List SellerStat) (r : PurchaseRecord)
    (h : stats.any (fun s => s.id = r.seller_id) = false) :
    processRecord cr pidx stats r = stats := by
  unfold processRecord
  simp [h]

/-- C6: a purchase record whose `seller_id` matches no seller leaves the
stats unchanged (no mutation, no error), and the whole report equals the
report of the same input with that record removed. -/
theorem c6_unknown_seller_skip (cr : RevenueFn) (cb : BonusFn)
    (products : List Product) (sellers : List Seller)
    (l₁ l₂ : List PurchaseRecord) (r : PurchaseRecord)
    (h : ∀ s ∈ sellers, s.id ≠ r.seller_id) :
    (∀ stats : List SellerStat,
        stats.map (fun s => s.id) = sellers.map (fun s => s.id) →
        processRecord cr (productIndex products) stats r = stats) ∧
    aggregate cr cb ⟨products, sellers, l₁ ++ r :: l₂⟩
      = aggregate cr cb ⟨products, sellers, l₁ ++ l₂⟩ := by
  have hskip : ∀ stats : List SellerStat,
      stats.map (fun s => s.id) = sellers.map (fun s => s.id) →
      processRecord cr (productIndex products) stats r = stats := by
    intro stats hmap
    apply processRecord_skip
    rw [any_id_stats, hmap, ← any_id_sellers]
    simp only [List.any_eq_false, decide_eq_true_eq]
    exact h
  refine ⟨hskip, ?_⟩
  have hps : processedStats cr ⟨products, sellers, l₁ ++ r :: l₂⟩
      = processedStats cr ⟨products, sellers, l₁ ++ l₂⟩ := by
    show (l₁ ++ r :: l₂).foldl (processRecord cr (productIndex products))
        (sellers.map initStat)
      = (l₁ ++ l₂).foldl (processRecord cr (productIndex products))
        (sellers.map initStat)
    rw [List.foldl_append, List.foldl_append, List.foldl_cons]
    congr 1
    apply hskip
    rw [foldl_processRecord_map_id, List.map_map]
    rfl
  unfold aggregate sortedStats
  rw [hps]

/-- C6 witness: a record for the unknown seller id 2 yields the same
report as the record list without it. -/
theorem c6_unknown_seller_skip_witness :
    aggregate (fun _ _ => 0) (fun _ _ _ => 0)
        ⟨[⟨"A", 5⟩], [⟨1, none, none⟩], [] ++ ⟨2, 3, none⟩ :: []⟩
      = aggregate (fun _ _ => 0) (fun _ _ _ => 0)
        ⟨[⟨"A", 5⟩], [⟨1, none, none⟩], [] ++ []⟩ :=
  (c6_unknown_seller_skip (fun _ _ => 0) (fun _ _ _ => 0) [⟨"A", 5⟩]
    [⟨1, none, none⟩] [] [] ⟨2, 3, none⟩ (by decide)).2

/-- C7: a line item whose sku matches no product is priced with cost 0:
the item contributes `calculateRevenue(item, undefined) - 0` to the
seller's profit, while its quantity is still accumulated into
`products_sold`. -/
theorem c7_unknown_sku (cr : RevenueFn) (products : List Product)
    (item : LineItem) (s : SellerStat)
    (h : ∀ p ∈ products, p.sku ≠ item.sku) :
    productIndex products item.sku = none ∧
    processItem cr (productIndex products) s item
      = { s with
          profit := s.profit + (cr item none - 0)
          products_sold := addSold s.products_sold item.sku item.quantity } := by
  have hnone : productIndex products item.sku = none := by
    unfold productIndex
    have hnil : products.filter (fun p => p.sku = item.sku) = [] := by
      simp only [List.filter_eq_nil_iff, decide_eq_true_eq]
      exact h
    rw [hnil]
    rfl
  refine ⟨hnone, ?_⟩
  unfold processItem
  rw [hnone]

/-- C7 witness: sku "B" is unknown among products `[{sku:"A"}]`; the item
contributes `cr(item, none) - 0` to profit and quantity 2 to
`products_sold`. -/
theorem c7_unknown_sku_witness :
    productIndex [⟨"A", 5⟩] "B" = none ∧
    processItem (fun _ _ => 3) (productIndex [⟨"A", 5⟩])
        ⟨1, "x", 0, 0, 0, []⟩ ⟨"B", 2, 10, none⟩
      = { id := 1, name := "x", revenue := 0, profit := 0 + (3 - 0),
          sales_count := 0, products_sold := addSold [] "B" 2 } :=
  c7_unknown_sku (fun _ _ => 3) [⟨"A", 5⟩] ⟨"B", 2, 10, none⟩
    ⟨1, "x", 0, 0, 0, []⟩ (by decide)

/-- C8: a record with a known seller but an absent / non-array `items`
field raises nothing: the matched seller still gets `sales_count + 1` and
`revenue + total_amount`, while every seller's profit and `products_sold`
are unchanged. -/
theorem c8_missing_items (cr : RevenueFn) (pidx : String → Option Product)
    (stats : List SellerStat) (r : PurchaseRecord)
    (hknown : stats.any (fun s => s.id = r.seller_id) = true)
    (hitems : r.items = none) :
    processRecord cr pidx stats r
      = updateLast r.seller_id
          (fun s =>
            { s with
              sales_count := s.sales_count + 1
              revenue := s.revenue + r.total_amount }) stats ∧
    (processRecord cr pidx stats r).map (fun s => s.profit)
      = stats.map (fun s => s.profit) ∧
    (processRecord cr pidx stats r).map (fun s => s.products_sold)
      = stats.map (fun s => s.products_sold) ∧
    ((processRecord cr pidx stats r).map (fun s => s.sales_count)).sum
      = (stats.map (fun s => s.sales_count)).sum + 1 ∧
    ((processRecord cr pidx stats r).map (fun s => s.revenue)).sum
      = (stats.map (fun s => s.revenue)).sum + r.total_amount := by
  have hru : recordUpdate cr pidx r = fun s =>
      { s with
        sales_count := s.sales_count + 1
        revenue := s.revenue + r.total_amount } := by
    funext s
    unfold recordUpdate
    rw [hitems]
  refine ⟨?_, ?_, ?_, ?_, ?_⟩
  · unfold processRecord
    rw [hknown]
    simp only [if_true]
    rw [hru]
  · refine processRecord_map_of_fix _ cr pidx r (fun s => ?_) stats
    rw [hru]
  · refine processRecord_map_of_fix _ cr pidx r (fun s => ?_) stats
    rw [hru]
  · rw [sales_count_sum_processRecord, hknown]
    simp
  · unfold processRecord
    rw [hknown]
    simp only [if_true]
    exact updateLast_map_sum _ r.total_amount _ _
      (fun s => revenue_recordUpdate cr pidx r s) stats hknown

/-- C8 witness: the record `{seller_id:1, total_amount:5, items:none}`
against a single matching seller stat. -/
theorem c8_missing_items_witness :
    processRecord (fun _ _ => 0) (productIndex []) [⟨1, "x", 0, 0, 0, []⟩] ⟨1, 5, none⟩
      = updateLast 1
          (fun s =>
            { s with
              sales_count := s.sales_count + 1
              revenue := s.revenue + (5 : ℚ) }) [⟨1, "x", 0, 0, 0, []⟩] :=
  (c8_missing_items (fun _ _ => 0) (productIndex []) [⟨1, "x", 0, 0, 0, []⟩]
    ⟨1, 5, none⟩ (by decide) rfl).1

/-! ## Claim C10: duplicate seller ids -/

theorem updateLast_keep (sid : Nat) (f : SellerStat → SellerStat)
    (hf : ∀ s, (f s).id = s.id) :
    ∀ (l₁ : List SellerStat) (u : SellerStat) (l₂ : List SellerStat),
      (∃ t ∈ l₂, t.id = u.id) →
      ∃ m₁ m₂, updateLast sid f (l₁ ++ u :: l₂) = m₁ ++ u :: m₂ ∧
        m₁.length = l₁.length ∧
        m₂.map (fun t => t.id) = l₂.map (fun t => t.id) := by
  intro l₁
  induction l₁ with
  | nil =>
    intro u l₂ hdup
    obtain ⟨t, ht, hid⟩ := hdup
    by_cases h : l₂.any (fun t => t.id = sid)
    · exact ⟨[], updateLast sid f l₂, by simp [updateLast, h], rfl,
        updateLast_map_of_fix _ sid f hf l₂⟩
    · by_cases h2 : u.id = sid
      · refine absurd ?_ h
        simp only [List.any_eq_true, decide_eq_true_eq]
        exact ⟨t, ht, by rw [hid, h2]⟩
      · exact ⟨[], l₂, by simp [updateLast, h, h2], rfl, rfl⟩
  | cons a l₁ ih =>
    intro u l₂ hdup
    simp only [List.cons_append]
    by_cases h : (l₁ ++ u :: l₂).any (fun t => t.id = sid)
    · obtain ⟨m₁, m₂, heq, hlen, hmap⟩ := ih u l₂ hdup
      exact ⟨a :: m₁, m₂, by simp [updateLast, h, heq], by simp [hlen], hmap⟩
    · by_cases h2 : a.id = sid
      · exact ⟨f a :: l₁, l₂, by simp [updateLast, h, h2], by simp, rfl⟩
      · exact ⟨a :: l₁, l₂, by simp [updateLast, h, h2], rfl, rfl⟩

theorem processRecord_keep (cr : RevenueFn) (pidx : String → Option Product)
    (r : PurchaseRecord) (l₁ : List SellerStat) (u : SellerStat)
    (l₂ : List SellerStat) (hdup : ∃ t ∈ l₂, t.id = u.id) :
    ∃ m₁ m₂, processRecord cr pidx (l₁ ++ u :: l₂) r = m₁ ++ u :: m₂ ∧
      m₁.length = l₁.length ∧
      m₂.map (fun t => t.id) = l₂.map (fun t => t.id) := by
  unfold processRecord
  by_cases h : (l₁ ++ u :: l₂).any (fun s => s.id = r.seller_id)
  · simp only [h, if_true]
    exact updateLast_keep _ _ (fun s => id_recordUpdate cr pidx r s) l₁ u l₂ hdup
  · simp only [h, Bool.false_eq_true, if_false]
    exact ⟨l₁, l₂, rfl, rfl, rfl⟩

theorem foldl_keep (cr : RevenueFn) (pidx : String → Option Product)
    (records : List PurchaseRecord) :
    ∀ (l₁ : List SellerStat) (u : SellerStat) (l₂ : List SellerStat),
      (∃ t ∈ l₂, t.id = u.id) →
      ∃ m₁ m₂,
        records.foldl (processRecord cr pidx) (l₁ ++ u :: l₂) = m₁ ++ u :: m₂ ∧
        m₁.length = l₁.length ∧
        m₂.map (fun t => t.id) = l₂.map (fun t => t.id) := by
  induction records with
  | nil => intro l₁ u l₂ h; exact ⟨l₁, l₂, rfl, rfl, rfl⟩
  | cons r records ih =>
    intro l₁ u l₂ hdup
    rw [List.foldl_cons]
    obtain ⟨m₁, m₂, heq, hlen, hmap⟩ := processRecord_keep cr pidx r l₁ u l₂ hdup
    rw [heq]
    have hd2 : ∃ t ∈ m₂, t.id = u.id := by
      obtain ⟨t, ht, hid⟩ := hdup
      have hmem : u.id ∈ m₂.map (fun t => t.id) := by
        rw [hmap]
        exact List.mem_map.mpr ⟨t, ht, hid⟩
      obtain ⟨t', ht', hid'⟩ := List.mem_map.mp hmem
      exact ⟨t', ht', hid'⟩
    obtain ⟨k₁, k₂, keq, klen, kmap⟩ := ih m₁ u m₂ hd2
    exact ⟨k₁, k₂, keq, by rw [klen, hlen], by rw [kmap, hmap]⟩

/-- C10: with duplicate seller ids the report still has one row per
seller entry; a record bearing a duplicated id is credited to the LAST
stat carrying that id (the seller index maps each id to its final
occurrence), everything else unchanged; and an earlier entry whose id
reoccurs later is never updated, so after the scan it still holds its
initial stat (revenue 0, profit 0, sales_count 0, no products sold). -/
theorem c10_duplicate_sellers (cr : RevenueFn) (cb : BonusFn)
    (pidx : String → Option Product) (r : PurchaseRecord)
    (l₁ l₂ : List SellerStat) (s : SellerStat)
    (hs : s.id = r.seller_id) (hlast : ∀ t ∈ l₂, t.id ≠ r.seller_id)
    (products : List Product) (ss₁ ss₂ : List Seller) (u : Seller)
    (records : List PurchaseRecord) (hdup : ∃ t ∈ ss₂, t.id = u.id) :
    processRecord cr pidx (l₁ ++ s :: l₂) r
      = l₁ ++ recordUpdate cr pidx r s :: l₂ ∧
    (aggregate cr cb ⟨products, ss₁ ++ u :: ss₂, records⟩).length
      = (ss₁ ++ u :: ss₂).length ∧
    ∃ t₁ t₂ : List SellerStat,
      processedStats cr ⟨products, ss₁ ++ u :: ss₂, records⟩
        = t₁ ++ initStat u :: t₂ ∧
      t₁.length = ss₁.length := by
  refine ⟨?_, aggregate_length cr cb _, ?_⟩
  · unfold processRecord
    have hany : (l₁ ++ s :: l₂).any (fun t => t.id = r.seller_id) = true := by
      simp only [List.any_eq_true, decide_eq_true_eq]
      exact ⟨s, by simp, hs⟩
    rw [hany]
    simp only [if_true]
    exact updateLast_append_last r.seller_id _ l₁ s l₂ hs hlast
  · have hdup2 : ∃ t ∈ ss₂.map initStat, t.id = (initStat u).id := by
      obtain ⟨t, ht, hid⟩ := hdup
      exact ⟨initStat t, List.mem_map_of_mem _ ht, hid⟩
    obtain ⟨m₁, m₂, heq, hlen, -⟩ := foldl_keep cr (productIndex products) records
      (ss₁.map initStat) (initStat u) (ss₂.map initStat) hdup2
    refine ⟨m₁, m₂, ?_, by rw [hlen, List.length_map]⟩
    show records.foldl (processRecord cr (productIndex products))
        ((ss₁ ++ u :: ss₂).map initStat) = m₁ ++ initStat u :: m₂
    rw [List.map_append, List.map_cons]
    exact heq

/-- C10 witness: two sellers share id 1; the record with seller_id 1
lands on the last stat with that id, and the earlier entry stays at its
initial zero stat. -/
theorem c10_duplicate_sellers_witness :
    processRecord (fun _ _ => 0) (productIndex [])
        ([⟨1, "x", 0, 0, 0, []⟩] ++ ⟨1, "y", 0, 0, 0, []⟩ :: []) ⟨1, 4, none⟩
      = [⟨1, "x", 0, 0, 0, []⟩]
          ++ recordUpdate (fun _ _ => 0) (productIndex []) ⟨1, 4, none⟩
              ⟨1, "y", 0, 0, 0, []⟩ :: [] ∧
    (aggregate (fun _ _ => 0) (fun _ _ _ => 0)
        ⟨[], [] ++ ⟨1, none, none⟩ :: [⟨1, none, none⟩], [⟨1, 4, none⟩]⟩).length
      = (([] : List Seller) ++ (⟨1, none, none⟩ : Seller) :: [⟨1, none, none⟩]).length ∧
    ∃ t₁ t₂ : List SellerStat,
      processedStats (fun _ _ => 0)
          ⟨[], [] ++ ⟨1, none, none⟩ :: [⟨1, none, none⟩], [⟨1, 4, none⟩]⟩
        = t₁ ++ initStat ⟨1, none, none⟩ :: t₂ ∧
      t₁.length = ([] : List Seller).length :=
  c10_duplicate_sellers (fun _ _ => 0) (fun _ _ _ => 0) (productIndex [])
    ⟨1, 4, none⟩ [⟨1, "x", 0, 0, 0, []⟩] [] ⟨1, "y", 0, 0, 0, []⟩ rfl (by decide)
    [] [] [⟨1, none, none⟩] ⟨1, none, none⟩ [⟨1, 4, none⟩] (by decide)

/-! ## Claim C4: the top-products list -/

theorem topLe_total (a b : TopProduct) : (topLe a b || topLe b a) = true := by
  unfold topLe
  by_cases h : a.quantity = b.quantity
  · rw [if_pos h, if_pos h.symm]
    rcases le_total a.sku b.sku with h' | h' <;> simp [h']
  · rw [if_neg h, if_neg (fun e => h e.symm)]
    rcases le_total a.quantity b.quantity with h' | h' <;> simp [h']

theorem topLe_trans (a b c : TopProduct) (h1 : topLe a b = true)
    (h2 : topLe b c = true) : topLe a c = true := by
  unfold topLe at h1 h2 ⊢
  by_cases hab : a.quantity = b.quantity <;> by_cases hbc : b.quantity = c.quantity
  · rw [if_pos hab] at h1
    rw [if_pos hbc] at h2
    rw [decide_eq_true_eq] at h1 h2
    rw [if_pos (hab.trans hbc)]
    exact decide_eq_true (le_trans h1 h2)
  · rw [if_neg hbc, decide_eq_true_eq] at h2
    have hcb : c.quantity < b.quantity := lt_of_le_of_ne h2 (fun e => hbc e.symm)
    have hca : c.quantity < a.quantity := lt_of_lt_of_le hcb (le_of_eq hab.symm)
    rw [if_neg (ne_of_gt hca)]
    exact decide_eq_true (le_of_lt hca)
  · rw [if_neg hab, decide_eq_true_eq] at h1
    have hba : b.quantity < a.quantity := lt_of_le_of_ne h1 (fun e => hab e.symm)
    have hca : c.quantity < a.quantity := lt_of_le_of_lt (le_of_eq hbc.symm) hba
    rw [if_neg (ne_of_gt hca)]
    exact decide_eq_true (le_of_lt hca)
  · rw [if_neg hab, decide_eq_true_eq] at h1
    rw [if_neg hbc, decide_eq_true_eq] at h2
    have hba : b.quantity < a.quantity := lt_of_le_of_ne h1 (fun e => hab e.symm)
    have hcb : c.quantity < b.quantity := lt_of_le_of_ne h2 (fun e => hbc e.symm)
    have hca : c.quantity < a.quantity := lt_trans hcb hba
    rw [if_neg (ne_of_gt hca)]
    exact decide_eq_true (le_of_lt hca)

theorem topLe_toOrder {a b : TopProduct} (h : topLe a b = true) : TopOrder a b := by
  unfold topLe at h
  by_cases hq : a.quantity = b.quantity
  · rw [if_pos hq, decide_eq_true_eq] at h
    exact Or.inr ⟨hq, h⟩
  · rw [if_neg hq, decide_eq_true_eq] at h
    exact Or.inl (lt_of_le_of_ne h (fun e => hq e.symm))

theorem topProducts_spec (ps : List (String × ℚ)) :
    (topProducts ps).length ≤ 10 ∧
    (topProducts ps).Pairwise TopOrder ∧
    ∃ l : List TopProduct,
      l.Perm (ps.map (fun e => TopProduct.mk e.1 e.2)) ∧
      l.Pairwise TopOrder ∧ topProducts ps = l.take 10 := by
  have hsorted : ((ps.map (fun e => TopProduct.mk e.1 e.2)).mergeSort topLe).Pairwise
      (fun a b => topLe a b = true) :=
    List.sorted_mergeSort (fun a b c h1 h2 => topLe_trans a b c h1 h2)
      (fun a b => topLe_total a b) (ps.map (fun e => TopProduct.mk e.1 e.2))
  have hto : ((ps.map (fun e => TopProduct.mk e.1 e.2)).mergeSort topLe).Pairwise
      TopOrder := hsorted.imp (fun h => topLe_toOrder h)
  refine ⟨?_, ?_, (ps.map (fun e => TopProduct.mk e.1 e.2)).mergeSort topLe,
    List.mergeSort_perm _ _, hto, ?_⟩
  · unfold topProducts
    rw [List.length_take]
    exact min_le_left _ _
  · unfold topProducts
    exact List.Pairwise.sublist (List.take_sublist _ _) hto
  · rfl

theorem mem_mapIdxFrom {α β : Type} (f : Nat → α → β) :
    ∀ (i : Nat) (l : List α) (b : β),
      b ∈ mapIdxFrom f i l → ∃ a ∈ l, ∃ j, b = f j a := by
  intro i l
  induction l generalizing i with
  | nil => intro b h; simp [mapIdxFrom] at h
  | cons x l ih =>
    intro b h
    simp only [mapIdxFrom, List.mem_cons] at h
    rcases h with h | h
    · exact ⟨x, by simp, i, h⟩
    · obtain ⟨a, ha, j, hb⟩ := ih (i + 1) b h
      exact ⟨a, by simp [ha], j, hb⟩

/-- C4: every report row's `top_products` has at most 10 entries, is
ordered by descending quantity with ties in ascending sku order, and is
the initial segment of a sorted permutation of that seller's
`products_sold` entries — the highest-quantity entries. -/
theorem c4_top_products (cr : RevenueFn) (cb : BonusFn) (d : SalesData)
    (r : SellerReport) (hr : r ∈ aggregate cr cb d) :
    r.top_products.length ≤ 10 ∧
    r.top_products.Pairwise TopOrder ∧
    ∃ s ∈ sortedStats cr d, r.seller_id = s.id ∧
      r.top_products = topProducts s.products_sold ∧
      ∃ l : List TopProduct,
        l.Perm (s.products_sold.map (fun e => TopProduct.mk e.1 e.2)) ∧
        l.Pairwise TopOrder ∧ r.top_products = l.take 10 := by
  unfold aggregate at hr
  obtain ⟨s, hs, j, hb⟩ := mem_mapIdxFrom _ 0 (sortedStats cr d) r hr
  subst hb
  obtain ⟨hlen, hpw, l, hperm, hlpw, htake⟩ := topProducts_spec s.products_sold
  exact ⟨hlen, hpw, s, hs, rfl, rfl, l, hperm, hlpw, htake⟩

/-- C4 witness: the single report row of a one-seller input has a
`top_products` list of at most 10 entries. -/
theorem c4_top_products_witness :
    toReport (fun _ _ _ => 0) 1 0
        (recordUpdate (fun _ _ => 0) (productIndex [⟨"A", 5⟩]) ⟨1, 0, none⟩
          (initStat ⟨1, none, none⟩))
      ∈ aggregate (fun _ _ => 0) (fun _ _ _ => 0)
        ⟨[⟨"A", 5⟩], [⟨1, none, none⟩], [⟨1, 0, none⟩]⟩ ∧
    (toReport (fun _ _ _ => 0) 1 0
        (recordUpdate (fun _ _ => 0) (productIndex [⟨"A", 5⟩]) ⟨1, 0, none⟩
          (initStat ⟨1, none, none⟩))).top_products.length ≤ 10 := by
  have h2 : sortedStats (fun _ _ => 0)
      ⟨[⟨"A", 5⟩], [⟨1, none, none⟩], [⟨1, 0, none⟩]⟩
      = [recordUpdate (fun _ _ => 0) (productIndex [⟨"A", 5⟩]) ⟨1, 0, none⟩
          (initStat ⟨1, none, none⟩)] := by
    show sortStats [recordUpdate (fun _ _ => 0) (productIndex [⟨"A", 5⟩]) ⟨1, 0, none⟩
          (initStat ⟨1, none, none⟩)] = _
    simp [sortStats]
  have h3 : aggregate (fun _ _ => 0) (fun _ _ _ => 0)
      ⟨[⟨"A", 5⟩], [⟨1, none, none⟩], [⟨1, 0, none⟩]⟩
      = [toReport (fun _ _ _ => 0) 1 0
          (recordUpdate (fun _ _ => 0) (productIndex [⟨"A", 5⟩]) ⟨1, 0, none⟩
            (initStat ⟨1, none, none⟩))] := by
    unfold aggregate
    rw [h2]
    rfl
  have hmem : toReport (fun _ _ _ => 0) 1 0
      (recordUpdate (fun _ _ => 0) (productIndex [⟨"A", 5⟩]) ⟨1, 0, none⟩
        (initStat ⟨1, none, none⟩))
      ∈ aggregate (fun _ _ => 0) (fun _ _ _ => 0)
        ⟨[⟨"A", 5⟩], [⟨1, none, none⟩], [⟨1, 0, none⟩]⟩ := by
    rw [h3]
    exact List.mem_singleton.mpr rfl
  exact ⟨hmem, (c4_top_products _ _ _ _ hmem).1⟩

end SalesBonus
